import Mathlib

/-!
Verification development for the Love Booth photo-booth application.

Shallow embedding of the core logic of the repository:
stripDimensions embeds the geometry computation of generateHighQualityStrip
(src/components/PhotoStripPreview.tsx), sendChunks embeds its chunked
Bluetooth write loop, handleBluetoothPrint its fallback routing,
STRIP_LAYOUTS the layout catalog (src/components/StripLayoutSelector.tsx),
the capture state machine and handleFileUpload come from
src/components/CaptureMode.tsx, and downloadImage from the
useImageDownload hook.  Machine numerics are modelled over Nat with the
relevant roundings made explicit.
-/

namespace LoveBooth

/-! ### Layout catalog (StripLayoutSelector.tsx, STRIP_LAYOUTS) -/

/-- One entry of the layout catalog.  The source record also carries a
React preview node, which is presentational only and omitted here. -/
structure StripLayout where
  id : String
  name : String
  photoCount : Nat
  aspectRatio : String
deriving DecidableEq

/-- The fixed catalog, field for field from STRIP_LAYOUTS in
StripLayoutSelector.tsx. -/
def STRIP_LAYOUTS : List StripLayout :=
  [ { id := "strip-3", name := "Classic 3", photoCount := 3, aspectRatio := "2x6" },
    { id := "strip-4", name := "Classic 4", photoCount := 4, aspectRatio := "2x6" },
    { id := "grid-4", name := "Grid 4", photoCount := 4, aspectRatio := "4x6" },
    { id := "wide-3", name := "Wide 3", photoCount := 3, aspectRatio := "4x6" } ]

/-- Lookup by id over the catalog (the resolve operation of the spec;
in the source the catalog is scanned by id, e.g. via the layout string
passed between components).  Pure: the catalog is a constant, so two
calls with the same id always return the same layout. -/
def resolve (layoutId : String) : Option StripLayout :=
  STRIP_LAYOUTS.find? (fun l => l.id == layoutId)

/-! ### Compositor geometry (PhotoStripPreview.tsx, generateHighQualityStrip) -/

/-- Upscale factor of generateHighQualityStrip. -/
def scale : Nat := 4

/-- Padding margin, 40 * scale. -/
def padding : Nat := 40 * scale

/-- Gap between photo cells, 20 * scale. -/
def photoGap : Nat := 20 * scale

/-- The four computed dimensions of the composite canvas. -/
structure StripDims where
  photoWidth : Nat
  photoHeight : Nat
  canvasWidth : Nat
  canvasHeight : Nat
deriving DecidableEq

/-- Dimension computation of generateHighQualityStrip, branch for branch
from PhotoStripPreview.tsx lines 63-82.  photoCount stands for
photos.length. -/
def stripDimensions (layout : String) (photoCount : Nat) : StripDims :=
  if layout = "strip-3" ∨ layout = "strip-4" then
    { photoWidth := 600 * scale
      photoHeight := 600 * scale
      canvasWidth := 600 * scale + padding * 2
      canvasHeight := padding * 2 + photoCount * (600 * scale) + (photoCount - 1) * photoGap }
  else if layout = "grid-4" then
    { photoWidth := 450 * scale
      photoHeight := 450 * scale
      canvasWidth := padding * 2 + 2 * (450 * scale) + photoGap
      canvasHeight := padding * 2 + 2 * (450 * scale) + photoGap }
  else
    { photoWidth := 800 * scale
      photoHeight := 300 * scale
      canvasWidth := 800 * scale + padding * 2
      canvasHeight := padding * 2 + photoCount * (300 * scale) + (photoCount - 1) * photoGap }

/-! ### Monochrome transform (PhotoStripPreview.tsx lines 136-146) -/

/-- Uint8ClampedArray storage clamp.  Channel values are nonnegative
naturals here, so only the upper clamp is relevant. -/
def clamp8 (n : Nat) : Nat := min n 255

/-- The per-pixel average (r + g + b) / 3 as it lands in the
Uint8ClampedArray: the quotient has fractional part 0, 1/3 or 2/3 (never
exactly 1/2, so round-half-to-even never ties), hence the stored value is
the quotient rounded to the nearest integer, then clamped to 8 bits. -/
def avgChannel (r g b : Nat) : Nat :=
  clamp8 (if (r + g + b) % 3 = 2 then (r + g + b) / 3 + 1 else (r + g + b) / 3)

/-- One RGBA pixel of the canvas image data. -/
structure Pixel where
  r : Nat
  g : Nat
  b : Nat
  a : Nat
deriving DecidableEq

/-- The grayscale loop body: replace r, g and b by their average, leave
alpha untouched. -/
def monoPixel (p : Pixel) : Pixel :=
  { r := avgChannel p.r p.g p.b
    g := avgChannel p.r p.g p.b
    b := avgChannel p.r p.g p.b
    a := p.a }

/-- The grayscale pass over the whole pixel buffer. -/
def monoTransform (data : List Pixel) : List Pixel :=
  data.map monoPixel

theorem avgChannel_le_255 (r g b : Nat) : avgChannel r g b ≤ 255 := by
  unfold avgChannel clamp8
  exact min_le_right _ _

theorem avgChannel_diag (v : Nat) (hv : v ≤ 255) : avgChannel v v v = v := by
  unfold avgChannel clamp8
  have h1 : (v + v + v) % 3 = 0 := by omega
  have h2 : (v + v + v) / 3 = v := by omega
  rw [h1]
  simp [h2, Nat.min_eq_left hv]

theorem monoPixel_idem (p : Pixel) : monoPixel (monoPixel p) = monoPixel p := by
  unfold monoPixel
  simp [avgChannel_diag _ (avgChannel_le_255 p.r p.g p.b)]

/-! ### Chunked Bluetooth writes (PhotoStripPreview.tsx lines 277-282) -/

/-- Number of chunks the loop issues for an n-byte buffer: the ceiling
of n / 512. -/
def numChunks (n : Nat) : Nat := (n + 511) / 512

/-- The chunking of a buffer into consecutive 512-byte slices, as
produced by bytes.slice(i, i + 512) for i = 0, 512, 1024, ... -/
def chunksOf (bytes : List Nat) : List (List Nat) :=
  if h : bytes = [] then []
  else bytes.take 512 :: chunksOf (bytes.drop 512)
termination_by bytes.length
decreasing_by
  simp only [List.length_drop]
  exact Nat.sub_lt (List.length_pos.mpr h) (by omega)

/-- The write loop of handleBluetoothPrint on one characteristic:
for (i = 0; i < bytes.length; i += 512) await writeValue(slice(i, i+512)).
ok k tells whether the k-th write succeeds; a failed write throws, so it
is the last write issued.  Returns the chunks issued (in issue order)
and whether the whole loop completed, i.e. every write succeeded. -/
def sendChunks (bytes : List Nat) (ok : Nat → Bool) (k : Nat) : List (List Nat) × Bool :=
  if h : bytes = [] then ([], true)
  else
    if ok k then
      let r := sendChunks (bytes.drop 512) ok (k + 1)
      (bytes.take 512 :: r.1, r.2)
    else ([bytes.take 512], false)
termination_by bytes.length
decreasing_by
  simp only [List.length_drop]
  exact Nat.sub_lt (List.length_pos.mpr h) (by omega)

theorem chunksOf_length (bytes : List Nat) :
    (chunksOf bytes).length = numChunks bytes.length := by
  induction bytes using chunksOf.induct with
  | case1 => simp [chunksOf, numChunks]
  | case2 bytes h ih =>
    rw [chunksOf]
    simp only [h, dif_neg, not_false_iff, List.length_cons, ih, List.length_drop]
    have hpos : 0 < bytes.length := List.length_pos.mpr h
    unfold numChunks
    omega

theorem chunksOf_get (bytes : List Nat) (k : Nat) :
    k < (chunksOf bytes).length →
    (chunksOf bytes).get? k = some ((bytes.drop (512 * k)).take 512) := by
  induction bytes using chunksOf.induct generalizing k with
  | case1 => simp [chunksOf]
  | case2 bytes h ih =>
    intro hk
    rw [chunksOf]
    simp only [h, dif_neg, not_false_iff]
    match k with
    | 0 => simp
    | k + 1 =>
      rw [chunksOf] at hk
      simp only [h, dif_neg, not_false_iff, List.length_cons, Nat.add_lt_add_iff_right] at hk
      simp only [List.get?_cons_succ, ih k hk, List.drop_drop]
      congr 2
      ring

theorem chunksOf_mem_length (bytes : List Nat) (c : List Nat) :
    c ∈ chunksOf bytes → c.length ≤ 512 := by
  induction bytes using chunksOf.induct with
  | case1 => simp [chunksOf]
  | case2 bytes h ih =>
    rw [chunksOf]
    simp only [h, dif_neg, not_false_iff, List.mem_cons]
    rintro (rfl | hc)
    · simpa using List.length_take_le 512 bytes
    · exact ih hc

theorem sendChunks_snd_iff (bytes : List Nat) (ok : Nat → Bool) (k : Nat) :
    (sendChunks bytes ok k).2 = true ↔
    ∀ j, j < numChunks bytes.length → ok (k + j) = true := by
  induction bytes, ok, k using sendChunks.induct with
  | case1 ok k => simp [sendChunks, numChunks]
  | case2 bytes ok k h hok ih =>
    rw [sendChunks]
    simp only [h, dif_neg, not_false_iff, hok, if_pos]
    have hpos : 0 < bytes.length := List.length_pos.mpr h
    have hsplit : numChunks bytes.length = numChunks (bytes.drop 512).length + 1 := by
      simp only [List.length_drop]
      unfold numChunks
      omega
    rw [ih, hsplit]
    constructor
    · intro hall j hj
      match j with
      | 0 => simpa using hok
      | j + 1 =>
        have := hall j (by omega)
        simpa [Nat.add_assoc, Nat.add_comm 1 j] using this
    · intro hall j hj
      have := hall (j + 1) (by omega)
      simpa [Nat.add_assoc, Nat.add_comm 1 j] using this
  | case3 bytes ok k h hok =>
    rw [sendChunks]
    simp only [h, dif_neg, not_false_iff, hok, if_neg, Bool.false_eq_true, false_iff]
    intro hall
    have hpos : 0 < bytes.length := List.length_pos.mpr h
    have := hall 0 (by unfold numChunks; omega)
    simp [hok] at this

theorem sendChunks_fst_of_success (bytes : List Nat) (ok : Nat → Bool) (k : Nat) :
    (sendChunks bytes ok k).2 = true →
    (sendChunks bytes ok k).1 = chunksOf bytes := by
  induction bytes, ok, k using sendChunks.induct with
  | case1 ok k => simp [sendChunks, chunksOf]
  | case2 bytes ok k h hok ih =>
    intro hs
    rw [sendChunks] at hs ⊢
    simp only [h, dif_neg, not_false_iff, hok, if_pos] at hs ⊢
    rw [chunksOf]
    simp only [h, dif_neg, not_false_iff, List.cons.injEq, true_and]
    exact ih hs
  | case3 bytes ok k h hok =>
    intro hs
    rw [sendChunks] at hs
    simp [h, hok] at hs

theorem sendChunks_chunk_le (bytes : List Nat) (ok : Nat → Bool) (k : Nat) (c : List Nat) :
    c ∈ (sendChunks bytes ok k).1 → c.length ≤ 512 := by
  induction bytes, ok, k using sendChunks.induct with
  | case1 ok k => simp [sendChunks]
  | case2 bytes ok k h hok ih =>
    rw [sendChunks]
    simp only [h, dif_neg, not_false_iff, hok, if_pos, List.mem_cons]
    rintro (rfl | hc)
    · simpa using List.length_take_le 512 bytes
    · exact ih hc
  | case3 bytes ok k h hok =>
    rw [sendChunks]
    rw [dif_neg h, if_neg hok]
    simp only [List.mem_singleton]
    rintro rfl
    simpa using List.length_take_le 512 bytes

/-! ### Print pipeline routing (PhotoStripPreview.tsx, handleBluetoothPrint) -/

/-- A GATT characteristic as the print path sees it: whether its
properties flag it writable (write or writeWithoutResponse), and which
of the chunk writes to it succeed. -/
structure BTChar where
  writable : Bool
  writeOk : Nat → Bool

/-- A primary service: none models getCharacteristics throwing (the
inner try catch continues with the next service), some gives its
characteristic list. -/
def BTService : Type := Option (List BTChar)

/-- The inner loop of handleBluetoothPrint over one service: take the
first writable characteristic and stream all chunks to it; true means
printed was set (every write succeeded).  A write failure throws, which
the service-level catch turns into moving on, i.e. false. -/
def tryService (bytes : List Nat) : List BTChar → Bool
  | [] => false
  | c :: rest =>
    if c.writable then (sendChunks bytes c.writeOk 0).2
    else tryService bytes rest

/-- The outer loop over all primary services: stop as soon as one
service printed; a service whose characteristics cannot be enumerated
is skipped. -/
def tryServices (bytes : List Nat) : List BTService → Bool
  | [] => false
  | none :: rest => tryServices bytes rest
  | some chars :: rest => tryService bytes chars || tryServices bytes rest

/-- Outcome of one handleBluetoothPrint session. -/
inductive PrintOutcome where
  | sentToPrinter
  | fallbackPrint
deriving DecidableEq

/-- The try-block of handleBluetoothPrint: connecting can throw, image
generation can throw, otherwise the service scan decides between the
success toast and the in-try fallback to the system dialog. -/
def printBody (gattOk imageOk : Bool) (bytes : List Nat)
    (services : List BTService) : Except String PrintOutcome :=
  if !gattOk then .error "Could not connect to device"
  else if !imageOk then .error "Failed to load image"
  else if tryServices bytes services then .ok .sentToPrinter
  else .ok .fallbackPrint

/-- handleBluetoothPrint with its catch-all handler: any exception from
the body is routed to the system print fallback. -/
def handleBluetoothPrint (gattOk imageOk : Bool) (bytes : List Nat)
    (services : List BTService) : PrintOutcome :=
  match printBody gattOk imageOk bytes services with
  | .ok o => o
  | .error _ => .fallbackPrint

/-- No service exposes a writable characteristic. -/
def noWritableChar (services : List BTService) : Prop :=
  ∀ s ∈ services, ∀ chars : List BTChar, s = some chars →
    ∀ c ∈ chars, c.writable = false

theorem tryService_eq_false_of_no_writable (bytes : List Nat) (chars : List BTChar)
    (h : ∀ c ∈ chars, c.writable = false) : tryService bytes chars = false := by
  induction chars with
  | nil => rfl
  | cons c rest ih =>
    unfold tryService
    rw [if_neg]
    · exact ih fun d hd => h d (List.mem_cons_of_mem c hd)
    · simp [h c (List.mem_cons_self c rest)]

theorem tryServices_eq_false_of_no_writable (bytes : List Nat)
    (services : List BTService) (h : noWritableChar services) :
    tryServices bytes services = false := by
  induction services with
  | nil => rfl
  | cons s rest ih =>
    match s with
    | none =>
      unfold tryServices
      exact ih fun t ht chars hc => h t (List.mem_cons_of_mem none ht) chars hc
    | some chars =>
      unfold tryServices
      rw [tryService_eq_false_of_no_writable bytes chars
        (h (some chars) (List.mem_cons_self _ rest) chars rfl)]
      simp only [Bool.false_or]
      exact ih fun t ht cs hc => h t (List.mem_cons_of_mem _ ht) cs hc

/-! ### Capture sequencing (CaptureMode.tsx lines 122-171, 417-426) -/

/-- The capture-relevant component state: the photos list and the
countdown value (null rendered as none). -/
structure CaptureState where
  photos : List String
  countdown : Option Nat
deriving DecidableEq

/-- startCountdown, lines 122-136: a no-op while another countdown is
active, otherwise arms the countdown with the selected duration.  The
interval ticks are modelled separately by countdownTick. -/
def startCountdown (timerDuration : Nat) (s : CaptureState) : CaptureState :=
  if s.countdown ≠ none then s
  else { s with countdown := some timerDuration }

/-- The Take Photo button, lines 417-426: it is rendered only while
photos.length < requiredPhotos and disabled while a countdown is active
or the camera is not ready, so a press reaches startCountdown only under
that guard. -/
def pressTakePhoto (required timerDuration : Nat) (cameraReady : Bool)
    (s : CaptureState) : CaptureState :=
  if s.photos.length < required ∧ s.countdown = none ∧ cameraReady = true then
    startCountdown timerDuration s
  else s

/-- capturePhoto, lines 138-166: appends the captured frame, provided
the video element is ready (videoWidth > 0 and both refs set), which
videoOk stands for. -/
def capturePhoto (videoOk : Bool) (newPhoto : String) (photos : List String) : List String :=
  if videoOk then photos ++ [newPhoto] else photos

/-- One interval tick, lines 126-135: at value 1 the interval is
cleared, capturePhoto fires and the countdown becomes null; at any other
positive value the countdown decrements; at null or 0 it becomes null
without a capture. -/
def countdownTick (videoOk : Bool) (newPhoto : String) (s : CaptureState) : CaptureState :=
  match s.countdown with
  | none => s
  | some n =>
    if n = 1 then
      { photos := capturePhoto videoOk newPhoto s.photos, countdown := none }
    else { s with countdown := if n = 0 then none else some (n - 1) }

/-- Index-aware filter, the shape of the JavaScript
photos.filter((_, i) => i !== index) callback with k the index of the
first element of the remaining list. -/
def filterIdxFrom (keep : Nat → Bool) : Nat → List String → List String
  | _, [] => []
  | k, x :: xs =>
    if keep k then x :: filterIdxFrom keep (k + 1) xs
    else filterIdxFrom keep (k + 1) xs

/-- deletePhoto, lines 168-171: drop the element whose index equals the
given one, keeping all others in order. -/
def deletePhoto (photos : List String) (index : Nat) : List String :=
  filterIdxFrom (fun i => i != index) 0 photos

/-- The delete event on the capture state. -/
def deleteEvent (index : Nat) (s : CaptureState) : CaptureState :=
  { s with photos := deletePhoto s.photos index }

/-- The capture states reachable within one camera session from the
empty state through button presses, interval ticks and deletions. -/
inductive Reachable (required : Nat) : CaptureState → Prop where
  | init : Reachable required { photos := [], countdown := none }
  | press (timerDuration : Nat) (cameraReady : Bool) {s : CaptureState} :
      Reachable required s →
      Reachable required (pressTakePhoto required timerDuration cameraReady s)
  | tick (videoOk : Bool) (newPhoto : String) {s : CaptureState} :
      Reachable required s →
      Reachable required (countdownTick videoOk newPhoto s)
  | delete (index : Nat) {s : CaptureState} :
      Reachable required s →
      Reachable required (deleteEvent index s)

theorem filterIdxFrom_length_le (keep : Nat → Bool) (k : Nat) (l : List String) :
    (filterIdxFrom keep k l).length ≤ l.length := by
  induction l generalizing k with
  | nil => simp [filterIdxFrom]
  | cons x xs ih =>
    unfold filterIdxFrom
    split
    · simpa using ih (k + 1)
    · exact le_trans (ih (k + 1)) (by simp)

theorem filterIdxFrom_ne_eq (index : Nat) (l : List String) (k : Nat) :
    filterIdxFrom (fun i => i != index) k l =
      if k ≤ index then l.eraseIdx (index - k) else l := by
  induction l generalizing k with
  | nil => simp [filterIdxFrom]
  | cons x xs ih =>
    unfold filterIdxFrom
    rcases Nat.lt_trichotomy k index with hk | hk | hk
    · rw [if_pos (by simp; omega), ih (k + 1), if_pos (by omega)]
      have hidx : index - k = (index - (k + 1)) + 1 := by omega
      rw [hidx, List.eraseIdx_cons_succ, if_pos (by omega)]
    · subst hk
      rw [if_neg (by simp), ih (k + 1), if_neg (by omega), if_pos (le_refl _)]
      simp [List.eraseIdx_cons_zero]
    · rw [if_pos (by simp; omega), ih (k + 1), if_neg (by omega), if_neg (by omega)]

theorem deletePhoto_eq_eraseIdx (photos : List String) (index : Nat) :
    deletePhoto photos index = photos.eraseIdx index := by
  unfold deletePhoto
  rw [filterIdxFrom_ne_eq, if_pos (Nat.zero_le index)]
  simp

theorem deletePhoto_length_le (photos : List String) (index : Nat) :
    (deletePhoto photos index).length ≤ photos.length :=
  filterIdxFrom_length_le _ 0 photos

/-- The session invariant: the photo list never exceeds the required
count, and during an active countdown it is strictly below it. -/
theorem reachable_invariant {required : Nat} {s : CaptureState}
    (h : Reachable required s) :
    s.photos.length ≤ required ∧
    (∀ n, s.countdown = some n → s.photos.length < required) := by
  induction h with
  | init => exact ⟨Nat.zero_le _, by intro n hn; cases hn⟩
  | press timerDuration cameraReady hr ih =>
    unfold pressTakePhoto
    split
    · rename_i hguard
      unfold startCountdown
      rw [if_neg (by simp [hguard.2.1])]
      exact ⟨ih.1, fun n _ => hguard.1⟩
    · exact ih
  | tick videoOk newPhoto hr ih =>
    rename_i s'
    rcases hc : s'.countdown with _ | n
    · simpa only [countdownTick, hc] using ih
    · have hlt : s'.photos.length < required := ih.2 n hc
      simp only [countdownTick, hc]
      by_cases hn1 : n = 1
      · rw [if_pos hn1]
        refine ⟨?_, ?_⟩
        · unfold capturePhoto
          split
          · simpa using hlt
          · exact ih.1
        · intro m hm
          simp at hm
      · rw [if_neg hn1]
        exact ⟨ih.1, fun m _ => hlt⟩
  | delete index hr ih =>
    rename_i s'
    unfold deleteEvent
    have hle := deletePhoto_length_le s'.photos index
    exact ⟨le_trans hle ih.1, fun n hn => lt_of_le_of_lt hle (ih.2 n hn)⟩

/-! ### Upload path (CaptureMode.tsx, handleFileUpload, lines 189-291) -/

/-- The extension alternatives of the fallback regular expression
(jpg|jpeg|png|gif|webp|heic|heif|bmp) with the i flag. -/
def imageExtensions : List String :=
  ["jpg", "jpeg", "png", "gif", "webp", "heic", "heif", "bmp"]

/-- The case-insensitive test for a recognized image file extension at
the end of the file name. -/
def hasImageExtension (fileName : String) : Bool :=
  imageExtensions.any fun ext => fileName.toLower.endsWith ("." ++ ext)

/-- An uploaded file as the handler sees it: its MIME type, its name,
and the outcome of the FileReader plus Image decode pipeline - some
processed data URL on success, none when the pipeline resolves the empty
sentinel string (read error, empty result or image load error).
Successful decodes yield nonempty data URLs, since the pipeline returns
either canvas.toDataURL output or the already checked nonempty source
data URL. -/
structure UFile where
  mimeType : String
  fileName : String
  decoded : Option String

/-- The per-file validity check, lines 204-208: MIME type starting with
image/ or a recognized extension. -/
def isImageFile (f : UFile) : Bool :=
  f.mimeType.startsWith "image/" || hasImageExtension f.fileName

/-- The user-visible notifications the handler can emit. -/
inductive ToastMsg where
  | errSelectExactly (n : Nat)
  | errOnlyImages
  | infoProcessing
  | successUploaded
  | errOnlyLoaded (got : Nat) (want : Nat)
deriving DecidableEq

/-- Whether a notification is an error (toast.error) as opposed to an
informational or success one. -/
def isErrorToast : ToastMsg → Bool
  | .errSelectExactly _ => true
  | .errOnlyImages => true
  | .errOnlyLoaded _ _ => true
  | _ => false

/-- The observable effects of one handleFileUpload invocation: the
toasts shown in order, whether the file input element was reset, and
the photo batch forwarded to onPhotosReady, if any. -/
structure UploadResult where
  toasts : List ToastMsg
  inputReset : Bool
  forwarded : Option (List String)
deriving DecidableEq

/-- The value each file resolves to, lines 221-276: the processed data
URL on success and the empty string on any failure. -/
def processedPhoto (f : UFile) : String :=
  match f.decoded with
  | some s => s
  | none => ""

/-- handleFileUpload, lines 189-291, branch for branch: empty selection
returns silently; a wrong-size batch and a batch with a non-image file
are rejected with an error toast and an input reset; otherwise the
batch is processed, failed decodes are dropped, and the result is
forwarded only when every file decoded. -/
def handleFileUpload (required : Nat) (files : List UFile) : UploadResult :=
  if files.length = 0 then
    { toasts := [], inputReset := false, forwarded := none }
  else if files.length ≠ required then
    { toasts := [.errSelectExactly required], inputReset := true, forwarded := none }
  else
    let validFiles := files.filter isImageFile
    if validFiles.length ≠ files.length then
      { toasts := [.errOnlyImages], inputReset := true, forwarded := none }
    else
      let processedPhotos := validFiles.map processedPhoto
      let validPhotos := processedPhotos.filter fun p => p != ""
      if validPhotos.length = required then
        { toasts := [.infoProcessing, .successUploaded],
          inputReset := true, forwarded := some validPhotos }
      else
        { toasts := [.infoProcessing, .errOnlyLoaded validPhotos.length required],
          inputReset := true, forwarded := none }

theorem filter_length_eq_iff {α : Type} (p : α → Bool) (l : List α) :
    (l.filter p).length = l.length ↔ ∀ a ∈ l, p a = true := by
  induction l with
  | nil => simp
  | cons x xs ih =>
    by_cases hx : p x = true
    · simp [List.filter_cons, hx, ih]
    · simp only [List.filter_cons, hx, if_neg, Bool.false_eq_true, not_false_iff,
        List.length_cons, List.mem_cons]
      have hle := List.length_filter_le p xs
      constructor
      · intro heq
        omega
      · intro hall
        exact absurd (hall x (Or.inl rfl)) hx

theorem map_processed_filter_eq_filterMap (files : List UFile)
    (hwf : ∀ f ∈ files, f.decoded ≠ some "") :
    ((files.map processedPhoto).filter fun p => p != "") =
      files.filterMap UFile.decoded := by
  induction files with
  | nil => simp
  | cons f fs ih =>
    have hf := hwf f (List.mem_cons_self f fs)
    have hrest : ∀ g ∈ fs, g.decoded ≠ some "" :=
      fun g hg => hwf g (List.mem_cons_of_mem f hg)
    rcases hd : f.decoded with _ | s
    · simp only [List.map_cons, List.filterMap_cons, hd]
      have : processedPhoto f = "" := by simp [processedPhoto, hd]
      simp [List.filter_cons, this, ih hrest]
    · have hs : s ≠ "" := fun h => hf (by rw [hd, h])
      simp only [List.map_cons, List.filterMap_cons, hd]
      have : processedPhoto f = s := by simp [processedPhoto, hd]
      simp [List.filter_cons, this, hs, ih hrest]

theorem filterMap_decoded_length_le (files : List UFile) :
    (files.filterMap UFile.decoded).length ≤ files.length := by
  induction files with
  | nil => simp
  | cons f fs ih =>
    rcases hd : f.decoded with _ | s <;>
      simp [List.filterMap_cons, hd] <;> omega

theorem filterMap_decoded_length_eq_iff (files : List UFile) :
    (files.filterMap UFile.decoded).length = files.length ↔
      ∀ f ∈ files, f.decoded.isSome = true := by
  induction files with
  | nil => simp
  | cons f fs ih =>
    rcases hd : f.decoded with _ | s
    · simp only [List.filterMap_cons, hd, List.length_cons, List.mem_cons]
      have hle := filterMap_decoded_length_le fs
      constructor
      · intro heq
        omega
      · intro hall
        have := hall f (Or.inl rfl)
        rw [hd] at this
        simp at this
    · simp only [List.filterMap_cons, hd, List.length_cons, List.mem_cons]
      constructor
      · intro heq g hg
        rcases hg with rfl | hg
        · simp [hd]
        · exact (ih.mp (by omega)) g hg
      · intro hall
        have := ih.mpr fun g hg => hall g (Or.inr hg)
        omega

/-! ### Export pipeline (useImageDownload hook, downloadImage) -/

/-- The state the hook keeps across invocations: the in-flight flag and
the currently held object URL. -/
structure DownloadState where
  isDownloading : Bool
  currentObjectUrl : Option String
deriving DecidableEq

/-- downloadImage: an overlapping invocation is rejected up front with
false; otherwise the body runs under a catch-all.  blobResult stands for
the fallible interior (blob conversion, object URL creation, anchor
click): ok with the created object URL, or error with the thrown
message.  The finally block clears the in-flight flag on every path that
entered the body; the catch path also revokes the object URL. -/
def downloadImage (blobResult : Except String String) (s : DownloadState) :
    Bool × DownloadState :=
  if s.isDownloading then (false, s)
  else
    match blobResult with
    | .ok url => (true, { isDownloading := false, currentObjectUrl := some url })
    | .error _ => (false, { isDownloading := false, currentObjectUrl := none })

/-! ### Claim theorems: C1, C6, C8 -/

/-- C1 counterexample: for the grid-4 layout with 4 photos the canvas
side computed by generateHighQualityStrip is 4000 px, not
padding*2 + 2*1800 + gap*4 = 160*2 + 2*1800 + 80*4 = 4240 px as the
claim states. -/
theorem c1_counterexample :
    ¬ ((stripDimensions "grid-4" 4).canvasWidth = 160 * 2 + 2 * 1800 + 80 * 4 ∧
       (stripDimensions "grid-4" 4).canvasHeight = 160 * 2 + 2 * 1800 + 80 * 4) := by
  decide

/-- C1 (amended): for the grid-4 layout with 4 photos the composite
canvas is square with each photo cell exactly 450*4 = 1800 px, and both
canvas width and canvas height equal padding*2 + 2*1800 + gap, namely
4000 px, where padding = 40*4 = 160 and gap = 20*4 = 80 (one gap
separates the two columns and one the two rows). -/
theorem c1_grid4_dimensions :
    (stripDimensions "grid-4" 4).photoWidth = 450 * 4 ∧
    (stripDimensions "grid-4" 4).photoWidth = 1800 ∧
    (stripDimensions "grid-4" 4).photoHeight = 1800 ∧
    (stripDimensions "grid-4" 4).canvasWidth = (stripDimensions "grid-4" 4).canvasHeight ∧
    (stripDimensions "grid-4" 4).canvasWidth = padding * 2 + 2 * 1800 + photoGap ∧
    padding = 40 * 4 ∧ photoGap = 20 * 4 ∧
    (stripDimensions "grid-4" 4).canvasWidth = 4000 := by
  decide

/-- C6: the monochrome pixel transform is idempotent: applying it twice
to any pixel buffer yields the same buffer as applying it once. -/
theorem c6_mono_idempotent (data : List Pixel) :
    monoTransform (monoTransform data) = monoTransform data := by
  unfold monoTransform
  rw [List.map_map]
  exact List.map_congr_left (fun p _ => monoPixel_idem p)

/-- C8: the layout catalog has exactly four layouts with pairwise
distinct ids strip-3, strip-4, grid-4, wide-3; photoCount is 3 for
strip-3 and wide-3 and 4 for strip-4 and grid-4, hence always in
the set containing 3 and 4; and lookup by id recovers each catalog
entry (the catalog is a constant, so lookup is stable across calls). -/
theorem c8_layout_catalog :
    STRIP_LAYOUTS.length = 4 ∧
    (STRIP_LAYOUTS.map StripLayout.id).Nodup ∧
    STRIP_LAYOUTS.map StripLayout.id = ["strip-3", "strip-4", "grid-4", "wide-3"] ∧
    STRIP_LAYOUTS.map StripLayout.photoCount = [3, 4, 4, 3] ∧
    (STRIP_LAYOUTS.all fun l => l.photoCount = 3 ∨ l.photoCount = 4) = true ∧
    (STRIP_LAYOUTS.all fun l => resolve l.id = some l) = true := by
  decide

/-- C2: for a nonempty byte buffer the write loop issues chunks of at
most 512 bytes; it completes successfully exactly when every one of the
ceil(N/512) writes succeeds; and on success it issued exactly
ceil(N/512) writes, the k-th holding bytes [512k, min(512(k+1), N)),
in order, each awaited before the next is issued (the loop is
sequential by construction). -/
theorem c2_chunking (bytes : List Nat) (ok : Nat → Bool) (hne : bytes ≠ []) :
    0 < numChunks bytes.length ∧
    ((sendChunks bytes ok 0).2 = true ↔
      ∀ k, k < numChunks bytes.length → ok k = true) ∧
    ((sendChunks bytes ok 0).2 = true →
      (sendChunks bytes ok 0).1.length = numChunks bytes.length ∧
      ∀ k, k < numChunks bytes.length →
        (sendChunks bytes ok 0).1.get? k = some ((bytes.drop (512 * k)).take 512)) ∧
    (∀ c ∈ (sendChunks bytes ok 0).1, c.length ≤ 512) := by
  have hpos : 0 < bytes.length := List.length_pos.mpr hne
  refine ⟨by unfold numChunks; omega, ?_, ?_, ?_⟩
  · rw [sendChunks_snd_iff]
    simp
  · intro hs
    rw [sendChunks_fst_of_success bytes ok 0 hs]
    refine ⟨chunksOf_length bytes, fun k hk => ?_⟩
    exact chunksOf_get bytes k (by rw [chunksOf_length]; exact hk)
  · exact sendChunks_chunk_le bytes ok 0

/-- C2 witness: the loop on the concrete three-byte buffer [1, 2, 3]
with all writes succeeding. -/
theorem c2_chunking_witness :
    0 < numChunks ([1, 2, 3] : List Nat).length ∧
    ((sendChunks [1, 2, 3] (fun _ => true) 0).2 = true ↔
      ∀ k, k < numChunks ([1, 2, 3] : List Nat).length → (fun _ => true) k = true) := by
  have h := c2_chunking [1, 2, 3] (fun _ => true) (by decide)
  exact ⟨h.1, h.2.1⟩

/-- C4 counterexample: with two services each holding one writable
characteristic, where every write to the first characteristic fails and
every write to the second succeeds, a characteristic write fails during
the session and yet the pipeline reports success instead of invoking the
system print fallback: the inner catch moves on to the next service. -/
theorem c4_counterexample :
    (sendChunks [0] (fun _ => false) 0).2 = false ∧
    handleBluetoothPrint true true [0]
      [some [{ writable := true, writeOk := fun _ => false }],
       some [{ writable := true, writeOk := fun _ => true }]] = .sentToPrinter := by
  have h1 : (sendChunks [0] (fun _ => false) 0).2 = false := by
    rw [sendChunks]
    simp
  have h2 : (sendChunks [0] (fun _ => true) 0).2 = true := by
    rw [sendChunks]
    simp only [List.drop]
    rw [sendChunks]
    simp
  refine ⟨h1, ?_⟩
  unfold handleBluetoothPrint printBody
  simp [tryServices, tryService, h1, h2]

theorem tryServices_eq_true_iff (bytes : List Nat) (services : List BTService) :
    tryServices bytes services = true ↔
    ∃ chars : List BTChar, some chars ∈ services ∧ tryService bytes chars = true := by
  induction services with
  | nil => simp [tryServices]
  | cons s rest ih =>
    match s with
    | none =>
      unfold tryServices
      rw [ih]
      constructor
      · rintro ⟨chars, hmem, hc⟩
        exact ⟨chars, List.mem_cons_of_mem none hmem, hc⟩
      · rintro ⟨chars, hmem, hc⟩
        rcases List.mem_cons.mp hmem with heq | hmem
        · exact absurd heq (by simp)
        · exact ⟨chars, hmem, hc⟩
    | some cs =>
      unfold tryServices
      rw [Bool.or_eq_true, ih]
      constructor
      · rintro (hc | ⟨chars, hmem, hc⟩)
        · exact ⟨cs, List.mem_cons_self _ rest, hc⟩
        · exact ⟨chars, List.mem_cons_of_mem _ hmem, hc⟩
      · rintro ⟨chars, hmem, hc⟩
        rcases List.mem_cons.mp hmem with heq | hmem
        · exact Or.inl (by rw [Option.some.injEq] at heq; rw [← heq]; exact hc)
        · exact Or.inr ⟨chars, hmem, hc⟩

/-- C4 (amended): the pipeline deterministically invokes the system
print fallback if the GATT connection fails, or image generation fails,
or no writable characteristic exists among the enumerated services, or
every streaming attempt fails (a failed write aborts the attempt on the
current service, and the scan continues with later services); it reports
success only when some service streamed the whole buffer successfully;
and it always terminates in one of the two outcomes, never in an
unhandled error state. -/
theorem c4_fallback_routing (gattOk imageOk : Bool) (bytes : List Nat)
    (services : List BTService) :
    (handleBluetoothPrint gattOk imageOk bytes services = .sentToPrinter ∨
     handleBluetoothPrint gattOk imageOk bytes services = .fallbackPrint) ∧
    (gattOk = false →
      handleBluetoothPrint gattOk imageOk bytes services = .fallbackPrint) ∧
    (imageOk = false →
      handleBluetoothPrint gattOk imageOk bytes services = .fallbackPrint) ∧
    (noWritableChar services →
      handleBluetoothPrint gattOk imageOk bytes services = .fallbackPrint) ∧
    (tryServices bytes services = false →
      handleBluetoothPrint gattOk imageOk bytes services = .fallbackPrint) ∧
    (handleBluetoothPrint gattOk imageOk bytes services = .sentToPrinter →
      ∃ chars : List BTChar, some chars ∈ services ∧ tryService bytes chars = true) := by
  have hfall : tryServices bytes services = false →
      handleBluetoothPrint gattOk imageOk bytes services = .fallbackPrint := by
    intro ht
    unfold handleBluetoothPrint printBody
    cases gattOk with
    | false => simp
    | true =>
      cases imageOk with
      | false => simp
      | true => simp [ht]
  refine ⟨?_, ?_, ?_, ?_, hfall, ?_⟩
  · cases h : handleBluetoothPrint gattOk imageOk bytes services with
    | sentToPrinter => exact Or.inl rfl
    | fallbackPrint => exact Or.inr rfl
  · rintro rfl
    unfold handleBluetoothPrint printBody
    simp
  · rintro rfl
    unfold handleBluetoothPrint printBody
    cases gattOk <;> simp
  · intro hnw
    exact hfall (tryServices_eq_false_of_no_writable bytes services hnw)
  · intro hsent
    rw [← tryServices_eq_true_iff]
    by_contra hne
    have hf : tryServices bytes services = false := by
      cases h : tryServices bytes services with
      | false => rfl
      | true => exact absurd h hne
    rw [hfall hf] at hsent
    exact absurd hsent (by simp)

/-- C4 witness: a failed GATT connection on the concrete empty setup is
routed to the system print fallback. -/
theorem c4_fallback_routing_witness :
    handleBluetoothPrint false true [] [] = .fallbackPrint :=
  (c4_fallback_routing false true [] []).2.1 rfl

/-- C5: in any state reachable in a capture session, pressing Take
Photo while a countdown is active is a no-op, pressing it while the
FrameSet is complete is a no-op, a countdown is never active once the
FrameSet is complete (so the firing tick never captures into a complete
set), a tick adds at most one photo, only the tick at value 1 captures
at all, and that tick clears the countdown, so each completed countdown
captures at most once. -/
theorem c5_capture_guards (required : Nat) (s : CaptureState)
    (h : Reachable required s) :
    (∀ timerDuration cameraReady, s.countdown.isSome = true →
      pressTakePhoto required timerDuration cameraReady s = s) ∧
    (∀ timerDuration cameraReady, required ≤ s.photos.length →
      pressTakePhoto required timerDuration cameraReady s = s) ∧
    (∀ n, s.countdown = some n → s.photos.length < required) ∧
    (∀ videoOk newPhoto,
      (countdownTick videoOk newPhoto s).photos.length ≤ s.photos.length + 1) ∧
    (∀ videoOk newPhoto, s.countdown ≠ some 1 →
      (countdownTick videoOk newPhoto s).photos = s.photos) ∧
    (∀ videoOk newPhoto, s.countdown = some 1 →
      (countdownTick videoOk newPhoto s).countdown = none) := by
  refine ⟨?_, ?_, (reachable_invariant h).2, ?_, ?_, ?_⟩
  · intro t c hsome
    unfold pressTakePhoto
    rw [if_neg]
    rintro ⟨_, hnone, _⟩
    rw [hnone] at hsome
    simp at hsome
  · intro t c hge
    unfold pressTakePhoto
    rw [if_neg]
    rintro ⟨hlt, _, _⟩
    exact absurd hlt (not_lt.mpr hge)
  · intro videoOk newPhoto
    rcases hc : s.countdown with _ | n
    · simp [countdownTick, hc]
    · simp only [countdownTick, hc]
      by_cases hn1 : n = 1
      · rw [if_pos hn1]
        unfold capturePhoto
        split
        · simp
        · simp
      · rw [if_neg hn1]
        simp
  · intro videoOk newPhoto hne1
    rcases hc : s.countdown with _ | n
    · simp [countdownTick, hc]
    · have hn1 : n ≠ 1 := by
        intro h1
        rw [h1] at hc
        exact hne1 hc
      simp [countdownTick, hc, hn1]
  · intro videoOk newPhoto h1
    simp [countdownTick, h1]

/-- C5 witness: in the concrete initial reachable state with required
count 0 the FrameSet is already complete, and pressing Take Photo is a
no-op. -/
theorem c5_capture_guards_witness :
    pressTakePhoto 0 3 true { photos := [], countdown := none } =
      { photos := [], countdown := none } :=
  (c5_capture_guards 0 { photos := [], countdown := none }
    Reachable.init).2.1 3 true (Nat.le_refl 0)

/-- C9: deleting an in-range index removes exactly that element,
keeping the relative order of the rest (the result is the prefix before
the index followed by the suffix after it), shrinks the list by one,
and after deleting one frame from a complete set the Take Photo press
starts a countdown again (capture is possible). -/
theorem c9_delete_photo (photos : List String) (index : Nat)
    (h : index < photos.length) :
    deletePhoto photos index = photos.take index ++ photos.drop (index + 1) ∧
    (deletePhoto photos index).length + 1 = photos.length ∧
    ∀ timerDuration,
      pressTakePhoto photos.length timerDuration true
          { photos := deletePhoto photos index, countdown := none } =
        { photos := deletePhoto photos index, countdown := some timerDuration } := by
  have he := deletePhoto_eq_eraseIdx photos index
  have hlen1 : (deletePhoto photos index).length + 1 = photos.length := by
    rw [he]
    exact List.length_eraseIdx_add_one h
  refine ⟨by rw [he]; exact List.eraseIdx_eq_take_drop_succ photos index, hlen1, ?_⟩
  intro t
  have hlt : (deletePhoto photos index).length < photos.length := by omega
  unfold pressTakePhoto
  rw [if_pos ⟨hlt, rfl, rfl⟩]
  unfold startCountdown
  rw [if_neg (by simp)]

/-- C9 witness: deleting index 1 from the concrete complete three-photo
set a, b, c. -/
theorem c9_delete_photo_witness :
    deletePhoto ["a", "b", "c"] 1 = ["a", "c"] := by
  have h := (c9_delete_photo ["a", "b", "c"] 1 (by decide)).1
  simpa using h

/-- C3: a nonempty batch is forwarded to onPhotosReady exactly when its
size equals the required photo count, every file passes the image check
and every file decodes; whatever is forwarded is the list of decoded
photos; every rejected batch produces an error toast (no partial
acceptance); and when only decoding failed the error reports the count
of successfully decoded images.  Successful decodes are nonempty data
URLs, which the hypothesis hwf records. -/
theorem c3_upload_batch (required : Nat) (files : List UFile)
    (hne : files ≠ []) (hwf : ∀ f ∈ files, f.decoded ≠ some "") :
    ((handleFileUpload required files).forwarded.isSome = true ↔
      (files.length = required ∧ (∀ f ∈ files, isImageFile f = true) ∧
        ∀ f ∈ files, f.decoded.isSome = true)) ∧
    ((handleFileUpload required files).forwarded = none →
      ∃ m ∈ (handleFileUpload required files).toasts, isErrorToast m = true) ∧
    (∀ ps, (handleFileUpload required files).forwarded = some ps →
      ps = files.filterMap UFile.decoded) ∧
    (files.length = required → (∀ f ∈ files, isImageFile f = true) →
      (∃ f ∈ files, f.decoded = none) →
      (handleFileUpload required files).toasts =
        [.infoProcessing,
         .errOnlyLoaded (files.filterMap UFile.decoded).length required] ∧
      (files.filterMap UFile.decoded).length < required) := by
  have hne0 : ¬files.length = 0 := fun h0 => hne (List.length_eq_zero.mp h0)
  by_cases hsize : files.length = required
  · by_cases himg : ∀ f ∈ files, isImageFile f = true
    · have hfe : files.filter isImageFile = files := List.filter_eq_self.mpr himg
      have hvp : ((files.map processedPhoto).filter fun p => p != "") =
          files.filterMap UFile.decoded :=
        map_processed_filter_eq_filterMap files hwf
      by_cases hdec : (files.filterMap UFile.decoded).length = required
      · have hall : ∀ f ∈ files, f.decoded.isSome = true :=
          (filterMap_decoded_length_eq_iff files).mp (by rw [hdec, hsize])
        have hr : handleFileUpload required files =
            { toasts := [.infoProcessing, .successUploaded], inputReset := true,
              forwarded := some (files.filterMap UFile.decoded) } := by
          unfold handleFileUpload
          rw [if_neg hne0, if_neg (fun hd => hd hsize)]
          simp only [hfe, hvp]
          rw [if_neg (fun hd => hd rfl), if_pos hdec]
        rw [hr]
        refine ⟨⟨fun _ => ⟨hsize, himg, hall⟩, fun _ => by simp⟩, by simp, ?_, ?_⟩
        · intro ps hps
          simpa using hps.symm
        · intro _ _ hex
          obtain ⟨f, hf, hnone⟩ := hex
          have := hall f hf
          rw [hnone] at this
          simp at this
      · have hnotall : ¬∀ f ∈ files, f.decoded.isSome = true := by
          intro hall
          exact hdec (by rw [(filterMap_decoded_length_eq_iff files).mpr hall, hsize])
        have hr : handleFileUpload required files =
            { toasts := [.infoProcessing,
                .errOnlyLoaded (files.filterMap UFile.decoded).length required],
              inputReset := true, forwarded := none } := by
          unfold handleFileUpload
          rw [if_neg hne0, if_neg (fun hd => hd hsize)]
          simp only [hfe, hvp]
          rw [if_neg (fun hd => hd rfl), if_neg hdec]
        rw [hr]
        refine ⟨⟨fun hco => by simp at hco, ?_⟩, ?_, by simp, ?_⟩
        · rintro ⟨_, _, hall⟩
          exact absurd hall hnotall
        · intro _
          exact ⟨.errOnlyLoaded (files.filterMap UFile.decoded).length required,
            by simp, rfl⟩
        · intro _ _ _
          have hle := filterMap_decoded_length_le files
          exact ⟨rfl, by omega⟩
    · have hflen : (files.filter isImageFile).length ≠ files.length :=
        fun hl => himg ((filter_length_eq_iff _ _).mp hl)
      have hr : handleFileUpload required files =
          { toasts := [.errOnlyImages], inputReset := true, forwarded := none } := by
        unfold handleFileUpload
        rw [if_neg hne0, if_neg (fun hd => hd hsize), if_pos hflen]
      rw [hr]
      refine ⟨⟨fun hco => by simp at hco, ?_⟩,
        fun _ => ⟨.errOnlyImages, by simp, rfl⟩, by simp, fun _ hi _ => absurd hi himg⟩
      rintro ⟨_, hi, _⟩
      exact absurd hi himg
  · have hr : handleFileUpload required files =
        { toasts := [.errSelectExactly required], inputReset := true,
          forwarded := none } := by
      unfold handleFileUpload
      rw [if_neg hne0, if_pos hsize]
    rw [hr]
    refine ⟨⟨fun hco => by simp at hco, ?_⟩,
      fun _ => ⟨.errSelectExactly required, by simp, rfl⟩, by simp,
      fun hs => absurd hs hsize⟩
    rintro ⟨hs, _, _⟩
    exact absurd hs hsize

/-- C3 witness: a concrete one-file batch against a two-photo
requirement is rejected with an error toast. -/
theorem c3_upload_batch_witness :
    ∃ m ∈ (handleFileUpload 2
      [{ mimeType := "text/plain", fileName := "x.txt",
         decoded := none }]).toasts, isErrorToast m = true :=
  (c3_upload_batch 2
    [{ mimeType := "text/plain", fileName := "x.txt", decoded := none }]
    (by simp) (by simp)).2.1 rfl

/-- C6 witness: the transform applied twice to a concrete one-pixel
buffer. -/
theorem c6_mono_idempotent_witness :
    monoTransform (monoTransform
        [{ r := 10, g := 20, b := 30, a := 40 }]) =
      monoTransform [{ r := 10, g := 20, b := 30, a := 40 }] :=
  c6_mono_idempotent [{ r := 10, g := 20, b := 30, a := 40 }]

/-- C10: an empty file selection (the user cancelled the picker) is a
silent no-op: no toast is shown, the file input element is not reset,
and nothing is forwarded, so the photo state is untouched - unlike every
other wrong-size batch, which raises an error toast and resets the
input. -/
theorem c10_empty_upload (required : Nat) :
    handleFileUpload required [] =
      { toasts := [], inputReset := false, forwarded := none } ∧
    handleFileUpload required [] ≠ handleFileUpload required
      (List.replicate (required + 1)
        { mimeType := "text/plain", fileName := "x.txt", decoded := none }) := by
  constructor
  · rfl
  · intro heq
    have hr : handleFileUpload required (List.replicate (required + 1)
        { mimeType := "text/plain", fileName := "x.txt", decoded := none }) =
        { toasts := [.errSelectExactly required], inputReset := true,
          forwarded := none } := by
      unfold handleFileUpload
      rw [if_neg (by simp), if_pos (by simp)]
    have h0 : handleFileUpload required [] =
        { toasts := [], inputReset := false, forwarded := none } := rfl
    rw [h0, hr] at heq
    simp at heq

/-- C10 witness: the concrete empty selection for a five-photo layout. -/
theorem c10_empty_upload_witness :
    handleFileUpload 5 [] =
      { toasts := [], inputReset := false, forwarded := none } :=
  (c10_empty_upload 5).1

/-- C7: an invocation of downloadImage while a previous one is still in
flight returns false immediately with the state untouched (no download
is started), any internal failure is converted to the boolean result
false (the function is total, nothing escapes its boundary), and a true
result certifies the body succeeded. -/
theorem c7_download_guard (blobResult : Except String String) (s : DownloadState) :
    (s.isDownloading = true → downloadImage blobResult s = (false, s)) ∧
    (∀ e, blobResult = .error e → (downloadImage blobResult s).1 = false) ∧
    ((downloadImage blobResult s).1 = true → ∃ url, blobResult = .ok url) := by
  unfold downloadImage
  by_cases hd : s.isDownloading = true
  · rw [if_pos hd]
    refine ⟨fun _ => rfl, fun e he => rfl, fun hcontra => absurd hcontra (by simp)⟩
  · rw [if_neg hd]
    refine ⟨fun hcontra => absurd hcontra hd, ?_, ?_⟩
    · rintro e rfl
      rfl
    · cases blobResult with
      | ok url => exact fun _ => ⟨url, rfl⟩
      | error e =>
        intro hcontra
        simp at hcontra

/-- C7 witness: a call arriving while a download is in flight returns
false and leaves the state unchanged. -/
theorem c7_download_guard_witness :
    downloadImage (Except.ok "blob:demo")
        { isDownloading := true, currentObjectUrl := none } =
      (false, { isDownloading := true, currentObjectUrl := none }) :=
  (c7_download_guard (Except.ok "blob:demo")
    { isDownloading := true, currentObjectUrl := none }).1 rfl

end LoveBooth
